import Mathlib

/-!
Verification of the follower-side replication state machine of the oxia
repository, shallowly embedded from `src/server/follower_controller.go`.

The controller's mutable fields (`epoch`, `commitIndex`, `headIndex`,
`status`) and its two collaborators — the write-ahead log (WAL) and the
KV store — are modelled as one explicit state record.  The Go handlers
`Fence`, `Truncate`, `addEntry`, `AddEntries` and `Close` become pure
state-passing functions that mirror the Go control flow line by line.
The `Wal` and `kv.DB` implementations are not part of the sources, so
their behaviour (append, truncate, bounded range read, write apply) is
modelled from the specification's collaborator contracts; the WAL is a
list of entries in append order and the KV store the list of applied
batch values.
-/

namespace Oxia

/-- Modelled from the spec: an `EntryId` is a pair `(epoch, offset)` of
u64 values, totally ordered lexicographically; only comparisons are ever
performed on the components, so `Nat` is a faithful carrier. -/
structure EntryId where
  epoch : Nat
  offset : Nat
deriving DecidableEq, Repr

/-- The sentinel zero entry id `(0,0)`, denoting "no entry". -/
def EntryId.zero : EntryId := ⟨0, 0⟩

/-- Lexicographic `≤` on entry ids, as a Boolean. -/
def EntryId.leb (a b : EntryId) : Bool :=
  decide (a.epoch < b.epoch ∨ (a.epoch = b.epoch ∧ a.offset ≤ b.offset))

/-- Lexicographic `<` on entry ids, as a Boolean. -/
def EntryId.ltb (a b : EntryId) : Bool :=
  decide (a.epoch < b.epoch ∨ (a.epoch = b.epoch ∧ a.offset < b.offset))

theorem EntryId.leb_iff (a b : EntryId) :
    a.leb b = true ↔ (a.epoch < b.epoch ∨ (a.epoch = b.epoch ∧ a.offset ≤ b.offset)) := by
  simp [EntryId.leb]

theorem EntryId.ltb_iff (a b : EntryId) :
    a.ltb b = true ↔ (a.epoch < b.epoch ∨ (a.epoch = b.epoch ∧ a.offset < b.offset)) := by
  simp [EntryId.ltb]

/-- Modelled from the spec: a log entry carries its id and an opaque
serialized write batch, abstracted here as a `Nat` token. -/
structure LogEntry where
  entryId : EntryId
  value : Nat
deriving DecidableEq, Repr

/-- Modelled from the spec: the follower status variant. -/
inductive Status where
  | NotMember
  | Fenced
  | Follower
deriving DecidableEq, Repr

/-- Modelled from the spec: wire message `FenceRequest`. -/
structure FenceRequest where
  epoch : Nat
deriving DecidableEq, Repr

/-- Modelled from the spec: wire message `FenceResponse`. -/
structure FenceResponse where
  epoch : Nat
  headIndex : EntryId
deriving DecidableEq, Repr

/-- Modelled from the spec: wire message `TruncateRequest`. -/
structure TruncateRequest where
  epoch : Nat
  headIndex : EntryId
deriving DecidableEq, Repr

/-- Modelled from the spec: wire message `TruncateResponse`. -/
structure TruncateResponse where
  epoch : Nat
  headIndex : EntryId
deriving DecidableEq, Repr

/-- Modelled from the spec: wire message `AddEntryRequest`. -/
structure AddEntryRequest where
  epoch : Nat
  entry : LogEntry
  commitIndex : EntryId
deriving DecidableEq, Repr

/-- Modelled from the spec: wire message `AddEntryResponse`; `entryId`
is optional on the wire. -/
structure AddEntryResponse where
  epoch : Nat
  entryId : Option EntryId
  invalidEpoch : Bool
deriving DecidableEq, Repr

/-- The error taxonomy of the controller: `ErrorInvalidEpoch` and
`ErrorInvalidStatus` from the source, plus pass-through WAL and KV
failures. -/
inductive OxiaError where
  | invalidEpoch
  | invalidStatus
  | walError
  | kvError
deriving DecidableEq, Repr

/-- Mirrors `checkEpochLaterIn`: errors unless the request epoch is
strictly later than the expected one. -/
def checkEpochLaterIn (reqEpoch expected : Nat) : Except OxiaError Unit :=
  if reqEpoch ≤ expected then Except.error OxiaError.invalidEpoch else Except.ok ()

/-- Mirrors `checkEpochEqualIn`: errors unless the request epoch equals
the expected one. -/
def checkEpochEqualIn (reqEpoch expected : Nat) : Except OxiaError Unit :=
  if reqEpoch ≠ expected then Except.error OxiaError.invalidEpoch else Except.ok ()

/-- Mirrors `checkStatus`: errors unless the actual status equals the
expected one. -/
def checkStatus (expected actual : Status) : Except OxiaError Unit :=
  if actual ≠ expected then Except.error OxiaError.invalidStatus else Except.ok ()

/-- Modelled from the spec: the id of the WAL's highest stored entry
(the last of the append-ordered list), `(0,0)` when the log is empty.
The `Wal` implementation is not among the sources. -/
def walHead (entries : List LogEntry) : EntryId :=
  match entries.getLast? with
  | some e => e.entryId
  | none => EntryId.zero

/-- Modelled from the spec: `Wal.TruncateLog` removes every entry with
id strictly after the given head and returns the new physical head
together with the remaining log. -/
def walTruncateLog (entries : List LogEntry) (head : EntryId) : EntryId × List LogEntry :=
  let kept := entries.filter (fun e => e.entryId.leb head)
  (walHead kept, kept)

/-- Modelled from the spec: `Wal.ReadSync` visits exactly the entries
with id strictly greater than `lo` and at most `hi`, in log order. -/
def walReadRange (entries : List LogEntry) (lo hi : EntryId) : List LogEntry :=
  entries.filter (fun e => lo.ltb e.entryId && e.entryId.leb hi)

/-- The `followerController` state: the four protocol fields together
with the owned WAL contents and the list of batch values applied to the
KV store, in application order. -/
structure FollowerState where
  epoch : Nat
  commitIndex : EntryId
  headIndex : EntryId
  status : Status
  wal : List LogEntry
  db : List Nat
deriving DecidableEq, Repr

/-- Mirrors `NewFollowerController`: at birth `epoch = 0`,
`commitIndex = (0,0)`, `status = NotMember`, and `headIndex` is the
WAL's highest stored entry (`GetHighestEntryOfEpoch(MaxEpoch)`). -/
def initState (walEntries : List LogEntry) : FollowerState :=
  { epoch := 0
    commitIndex := EntryId.zero
    headIndex := walHead walEntries
    status := Status.NotMember
    wal := walEntries
    db := [] }

/-- Mirrors `Fence`: guard the epoch with `checkEpochLaterIn`, then set
`epoch := req.epoch`, `status := Fenced` and answer with the (updated)
epoch and the current head index. -/
def Fence (s : FollowerState) (req : FenceRequest) :
    FollowerState × Except OxiaError FenceResponse :=
  match checkEpochLaterIn req.epoch s.epoch with
  | Except.error e => (s, Except.error e)
  | Except.ok _ =>
    let s1 := { s with epoch := req.epoch, status := Status.Fenced }
    (s1, Except.ok { epoch := s1.epoch, headIndex := s1.headIndex })

/-- Mirrors `Truncate` with the outcome of the `wal.TruncateLog` call
supplied explicitly (the `Wal` implementation is outside the sources):
check status, check epoch equality, set `status := Follower` and
`epoch := req.epoch`, then either propagate the WAL error — with the
controller fields already mutated — or install the returned head.  On
the error path the WAL contents are left as they were, which the
theorems below never rely on. -/
def TruncateW (s : FollowerState) (req : TruncateRequest)
    (walResult : Except Unit (EntryId × List LogEntry)) :
    FollowerState × Except OxiaError TruncateResponse :=
  match checkStatus Status.Fenced s.status with
  | Except.error e => (s, Except.error e)
  | Except.ok _ =>
    match checkEpochEqualIn req.epoch s.epoch with
    | Except.error e => (s, Except.error e)
    | Except.ok _ =>
      let s1 := { s with status := Status.Follower, epoch := req.epoch }
      match walResult with
      | Except.error _ => (s1, Except.error OxiaError.walError)
      | Except.ok r =>
        ({ s1 with headIndex := r.1, wal := r.2 },
         Except.ok { epoch := req.epoch, headIndex := r.1 })

/-- `Truncate` with the WAL call resolved against the list model of the
log, which never fails. -/
def Truncate (s : FollowerState) (req : TruncateRequest) :
    FollowerState × Except OxiaError TruncateResponse :=
  TruncateW s req (Except.ok (walTruncateLog s.wal req.headIndex))

/-- Mirrors `addEntry`: reject with `InvalidStatus` unless the status is
`Follower` or `Fenced`; answer a stale-epoch request in-band with
`invalid_epoch = true` and no state change; otherwise become `Follower`
at the request's epoch, append the entry, move the head index, overwrite
the commit index with the request's, and apply the WAL entries strictly
between the old and the new commit index to the KV store before
acknowledging. -/
def addEntry (s : FollowerState) (req : AddEntryRequest) :
    FollowerState × Except OxiaError AddEntryResponse :=
  if s.status ≠ Status.Follower ∧ s.status ≠ Status.Fenced then
    (s, Except.error OxiaError.invalidStatus)
  else if req.epoch < s.epoch then
    (s, Except.ok { epoch := req.epoch, entryId := none, invalidEpoch := true })
  else
    let s1 := { s with status := Status.Follower, epoch := req.epoch,
                       wal := s.wal ++ [req.entry] }
    let oldCommitIndex := s1.commitIndex
    let s2 := { s1 with headIndex := req.entry.entryId, commitIndex := req.commitIndex }
    let applied := walReadRange s2.wal oldCommitIndex s2.commitIndex
    let s3 := { s2 with db := s2.db ++ applied.map LogEntry.value }
    (s3, Except.ok { epoch := s3.epoch, entryId := some req.entry.entryId,
                     invalidEpoch := false })

/-- Mirrors the `AddEntries` stream loop: process the received requests
in order, emitting one response per accepted request, and terminate the
stream on the first `addEntry` error; the end of the request list plays
the transport's end-of-stream. -/
def AddEntries (s : FollowerState) (reqs : List AddEntryRequest) :
    FollowerState × List AddEntryResponse :=
  match reqs with
  | [] => (s, [])
  | r :: rest =>
    match addEntry s r with
    | (s1, Except.ok res) =>
      let out := AddEntries s1 rest
      (out.1, res :: out.2)
    | (s1, Except.error _) => (s1, [])

/-- Mirrors `Close`, with the outcomes the two collaborators would
produce supplied explicitly: close the WAL and return its error at once
when it fails, otherwise close the KV store and return its outcome.  The
two Booleans record whether `wal.Close` and `db.Close` were invoked; the
Go body reads and writes none of the controller's fields, so the state
is returned unchanged. -/
def Close (s : FollowerState) (walResult dbResult : Except Unit Unit) :
    FollowerState × Bool × Bool × Except OxiaError Unit :=
  match walResult with
  | Except.error _ => (s, true, false, Except.error OxiaError.walError)
  | Except.ok _ =>
    match dbResult with
    | Except.error _ => (s, true, true, Except.error OxiaError.kvError)
    | Except.ok _ => (s, true, true, Except.ok ())

/-- One admissible external call on the controller. -/
inductive Call where
  | fence (req : FenceRequest)
  | truncate (req : TruncateRequest)
  | addEntry (req : AddEntryRequest)
deriving DecidableEq, Repr

/-- The state reached after one call (the response is discarded). -/
def step (s : FollowerState) (c : Call) : FollowerState :=
  match c with
  | Call.fence req => (Fence s req).1
  | Call.truncate req => (Truncate s req).1
  | Call.addEntry req => (addEntry s req).1

/-- The state reached after a sequence of calls. -/
def run (s : FollowerState) (cs : List Call) : FollowerState :=
  cs.foldl step s

theorem run_nil (s : FollowerState) : run s [] = s := rfl

theorem run_cons (s : FollowerState) (c : Call) (cs : List Call) :
    run s (c :: cs) = run (step s c) cs := rfl

theorem checkEpochLaterIn_err (r e : Nat) (h : r ≤ e) :
    checkEpochLaterIn r e = Except.error OxiaError.invalidEpoch := by
  simp [checkEpochLaterIn, h]

theorem checkEpochLaterIn_ok (r e : Nat) (h : e < r) :
    checkEpochLaterIn r e = Except.ok () := by
  simp [checkEpochLaterIn, Nat.not_le.mpr h]

/-- Complete case analysis of `Fence`: either the request epoch is not
later and the call fails with `InvalidEpoch` leaving the state intact,
or it is later and the epoch is raised, the status becomes `Fenced`, and
the head index is returned. -/
theorem Fence_cases (s : FollowerState) (req : FenceRequest) :
    (req.epoch ≤ s.epoch ∧ Fence s req = (s, Except.error OxiaError.invalidEpoch)) ∨
    (s.epoch < req.epoch ∧ Fence s req =
      ({ s with epoch := req.epoch, status := Status.Fenced },
       Except.ok { epoch := req.epoch, headIndex := s.headIndex })) := by
  by_cases h : req.epoch ≤ s.epoch
  · exact Or.inl ⟨h, by rw [Fence, checkEpochLaterIn_err _ _ h]⟩
  · exact Or.inr ⟨Nat.lt_of_not_le h,
      by rw [Fence, checkEpochLaterIn_ok _ _ (Nat.lt_of_not_le h)]⟩

theorem checkEpochEqualIn_err (r e : Nat) (h : r ≠ e) :
    checkEpochEqualIn r e = Except.error OxiaError.invalidEpoch := by
  simp [checkEpochEqualIn, h]

theorem checkEpochEqualIn_ok (r e : Nat) (h : r = e) :
    checkEpochEqualIn r e = Except.ok () := by
  simp [checkEpochEqualIn, h]

theorem checkStatus_err (exp act : Status) (h : act ≠ exp) :
    checkStatus exp act = Except.error OxiaError.invalidStatus := by
  simp [checkStatus, h]

theorem checkStatus_ok (exp act : Status) (h : act = exp) :
    checkStatus exp act = Except.ok () := by
  simp [checkStatus, h]

/-- Complete case analysis of `Truncate`: wrong status, clashing epoch,
or acceptance with the WAL truncated and the reported head installed. -/
theorem Truncate_cases (s : FollowerState) (req : TruncateRequest) :
    (s.status ≠ Status.Fenced ∧
      Truncate s req = (s, Except.error OxiaError.invalidStatus)) ∨
    (s.status = Status.Fenced ∧ req.epoch ≠ s.epoch ∧
      Truncate s req = (s, Except.error OxiaError.invalidEpoch)) ∨
    (s.status = Status.Fenced ∧ req.epoch = s.epoch ∧
      Truncate s req =
        ({ s with status := Status.Follower, epoch := req.epoch,
                  headIndex := (walTruncateLog s.wal req.headIndex).1,
                  wal := (walTruncateLog s.wal req.headIndex).2 },
         Except.ok { epoch := req.epoch,
                     headIndex := (walTruncateLog s.wal req.headIndex).1 })) := by
  by_cases hs : s.status = Status.Fenced
  · by_cases he : req.epoch = s.epoch
    · refine Or.inr (Or.inr ⟨hs, he, ?_⟩)
      rw [Truncate, TruncateW, checkStatus_ok _ _ hs, checkEpochEqualIn_ok _ _ he]
    · refine Or.inr (Or.inl ⟨hs, he, ?_⟩)
      rw [Truncate, TruncateW, checkStatus_ok _ _ hs, checkEpochEqualIn_err _ _ he]
  · refine Or.inl ⟨hs, ?_⟩
    rw [Truncate, TruncateW, checkStatus_err _ _ hs]

/-- The final state of an accepted `addEntry`, spelt out. -/
def addEntryAccepted (s : FollowerState) (req : AddEntryRequest) : FollowerState :=
  { s with status := Status.Follower, epoch := req.epoch,
           wal := s.wal ++ [req.entry],
           headIndex := req.entry.entryId,
           commitIndex := req.commitIndex,
           db := s.db ++ (walReadRange (s.wal ++ [req.entry])
                            s.commitIndex req.commitIndex).map LogEntry.value }

/-- Complete case analysis of `addEntry`: wrong status, stale epoch
answered in-band with no state change, or acceptance. -/
theorem addEntry_cases (s : FollowerState) (req : AddEntryRequest) :
    ((s.status ≠ Status.Follower ∧ s.status ≠ Status.Fenced) ∧
      addEntry s req = (s, Except.error OxiaError.invalidStatus)) ∨
    ((s.status = Status.Follower ∨ s.status = Status.Fenced) ∧ req.epoch < s.epoch ∧
      addEntry s req =
        (s, Except.ok { epoch := req.epoch, entryId := none, invalidEpoch := true })) ∨
    ((s.status = Status.Follower ∨ s.status = Status.Fenced) ∧ s.epoch ≤ req.epoch ∧
      addEntry s req =
        (addEntryAccepted s req,
         Except.ok { epoch := req.epoch, entryId := some req.entry.entryId,
                     invalidEpoch := false })) := by
  by_cases hbad : s.status ≠ Status.Follower ∧ s.status ≠ Status.Fenced
  · exact Or.inl ⟨hbad, by rw [addEntry, if_pos hbad]⟩
  · have hok : s.status = Status.Follower ∨ s.status = Status.Fenced := by
      rcases not_and_or.mp hbad with h | h
      · exact Or.inl (not_not.mp h)
      · exact Or.inr (not_not.mp h)
    by_cases hlt : req.epoch < s.epoch
    · exact Or.inr (Or.inl ⟨hok, hlt, by rw [addEntry, if_neg hbad, if_pos hlt]⟩)
    · refine Or.inr (Or.inr ⟨hok, Nat.le_of_not_lt hlt, ?_⟩)
      rw [addEntry, if_neg hbad, if_neg hlt]
      rfl

/-- An entry range read with an upper bound at or below the lower bound
is empty. -/
theorem walReadRange_eq_nil (l : List LogEntry) (lo hi : EntryId)
    (h : hi.leb lo = true) : walReadRange l lo hi = [] := by
  rw [walReadRange, List.filter_eq_nil_iff]
  intro e _
  rw [EntryId.leb_iff] at h
  simp only [Bool.and_eq_true, EntryId.ltb_iff, EntryId.leb_iff, not_and_or]
  omega

/-- No single call lowers the epoch. -/
theorem step_epoch_le (s : FollowerState) (c : Call) : s.epoch ≤ (step s c).epoch := by
  cases c with
  | fence req =>
    rcases Fence_cases s req with ⟨h, hE⟩ | ⟨h, hE⟩ <;> (simp [step, hE]; try omega)
  | truncate req =>
    rcases Truncate_cases s req with ⟨_, hE⟩ | ⟨_, _, hE⟩ | ⟨_, he, hE⟩ <;>
      (simp [step, hE]; try omega)
  | addEntry req =>
    rcases addEntry_cases s req with ⟨_, hE⟩ | ⟨_, _, hE⟩ | ⟨_, he, hE⟩ <;>
      (simp [step, hE, addEntryAccepted]; try omega)

/-- No call sequence lowers the epoch. -/
theorem run_epoch_le (s : FollowerState) (cs : List Call) :
    s.epoch ≤ (run s cs).epoch := by
  induction cs generalizing s with
  | nil => exact Nat.le_refl _
  | cons c cs ih => exact Nat.le_trans (step_epoch_le s c) (ih (step s c))

/-- Admissibility condition for the amended commit/head invariant: each
accepted `AddEntryRequest` must carry a commit index at most its entry
id, and each `Truncate` must not drop the WAL head below the current
commit index.  The controller itself checks neither. -/
def goodCall (s : FollowerState) : Call → Prop
  | Call.addEntry req => req.commitIndex.leb req.entry.entryId = true
  | Call.truncate req => s.commitIndex.leb (walTruncateLog s.wal req.headIndex).1 = true
  | Call.fence _ => True

/-- A run all of whose calls satisfy `goodCall` at their point of
execution. -/
inductive GoodRun : FollowerState → List Call → Prop
  | nil (s : FollowerState) : GoodRun s []
  | cons (s : FollowerState) (c : Call) (cs : List Call) :
      goodCall s c → GoodRun (step s c) cs → GoodRun s (c :: cs)

/-- One good call preserves `commitIndex ≤ headIndex`. -/
theorem step_commit_le_head (s : FollowerState) (c : Call)
    (h0 : s.commitIndex.leb s.headIndex = true) (hc : goodCall s c) :
    (step s c).commitIndex.leb (step s c).headIndex = true := by
  cases c with
  | fence req =>
    rcases Fence_cases s req with ⟨_, hE⟩ | ⟨_, hE⟩ <;> simp [step, hE] <;> exact h0
  | truncate req =>
    rcases Truncate_cases s req with ⟨_, hE⟩ | ⟨_, _, hE⟩ | ⟨_, _, hE⟩ <;>
        simp [step, hE]
    · exact h0
    · exact h0
    · simpa [goodCall] using hc
  | addEntry req =>
    rcases addEntry_cases s req with ⟨_, hE⟩ | ⟨_, _, hE⟩ | ⟨_, _, hE⟩ <;>
        simp [step, hE, addEntryAccepted]
    · exact h0
    · exact h0
    · simpa [goodCall] using hc

/-- A fence followed by an accepted entry whose request commit index
exceeds its entry id; the controller installs both without any check. -/
def badCalls : List Call :=
  [Call.fence { epoch := 1 },
   Call.addEntry { epoch := 1, entry := { entryId := ⟨1, 0⟩, value := 7 },
                   commitIndex := ⟨1, 5⟩ }]

/-- Claim C1 counterexample: from a fresh controller, the admissible
sequence `Fence{1}; AddEntry{epoch 1, entry (1,0), commit (1,5)}` is
fully processed and leaves `commitIndex = (1,5)` strictly above
`headIndex = (1,0)`: the invariant fails for a request whose commit
index exceeds its entry id, because `addEntry` installs the request's
commit index without comparing it to the head. -/
theorem commit_above_head_ctrex :
    ((run (initState []) badCalls).commitIndex.leb
      (run (initState []) badCalls).headIndex) = false := by decide

/-- Claim C1 (amended): `commitIndex ≤ headIndex` (lexicographically)
is preserved by every admissible call sequence provided each
`AddEntryRequest` carries `commit_index ≤ entry.entry_id` and no
`Truncate` drops the WAL head below the current commit index; the
controller itself never checks either side condition, and without them
the invariant fails (see the counterexample). -/
theorem run_commit_le_head (s : FollowerState) (cs : List Call) (hg : GoodRun s cs)
    (h0 : s.commitIndex.leb s.headIndex = true) :
    (run s cs).commitIndex.leb (run s cs).headIndex = true := by
  induction hg with
  | nil s => exact h0
  | cons s c cs hc _ ih =>
    rw [run_cons]
    exact ih (step_commit_le_head s c h0 hc)

/-- Claim C1 witness: the amended invariant evaluated on the concrete
run `Fence{1}` from a fresh controller. -/
theorem run_commit_le_head_witness :
    (run (initState []) [Call.fence { epoch := 1 }]).commitIndex.leb
      (run (initState []) [Call.fence { epoch := 1 }]).headIndex = true :=
  run_commit_le_head (initState []) [Call.fence { epoch := 1 }]
    (GoodRun.cons _ _ _ True.intro (GoodRun.nil _)) (by decide)

/-- A follower that has already applied up to `(1,2)`. -/
def regressState : FollowerState :=
  { epoch := 1, commitIndex := ⟨1, 2⟩, headIndex := ⟨1, 2⟩, status := Status.Follower,
    wal := [{ entryId := ⟨1, 0⟩, value := 10 }, { entryId := ⟨1, 1⟩, value := 11 },
            { entryId := ⟨1, 2⟩, value := 12 }],
    db := [10, 11, 12] }

/-- An accepted request whose commit index `(1,1)` is below the current
commit index `(1,2)`. -/
def regressReq : AddEntryRequest :=
  { epoch := 1, entry := { entryId := ⟨1, 3⟩, value := 13 }, commitIndex := ⟨1, 1⟩ }

/-- Claim C2 counterexample: an accepted request carrying
`commit_index = (1,1) ≤ current commit_index = (1,2)` does not leave the
commit index unchanged — `addEntry` overwrites it with `(1,1)`,
regressing it. -/
theorem addEntry_commit_regress_ctrex :
    regressReq.commitIndex.leb regressState.commitIndex = true ∧
    (addEntry regressState regressReq).1.commitIndex ≠ regressState.commitIndex :=
  ⟨rfl, by decide⟩

/-- Claim C2 (amended): an accepted `addEntry` sets the commit index to
`req.commit_index` unconditionally (so it can regress, and it is
assigned before the apply rather than after); the batches handed to the
KV store are exactly the WAL entries — the just-appended one included —
strictly greater than the old commit index and at most
`req.commit_index`, in log order, and that apply range is empty whenever
`req.commit_index ≤` the old commit index. -/
theorem addEntry_commit_apply (s : FollowerState) (req : AddEntryRequest)
    (hs : s.status = Status.Follower ∨ s.status = Status.Fenced)
    (he : s.epoch ≤ req.epoch) :
    (addEntry s req).1.commitIndex = req.commitIndex ∧
    (addEntry s req).1.db =
      s.db ++ (walReadRange (s.wal ++ [req.entry]) s.commitIndex req.commitIndex).map
        LogEntry.value ∧
    (req.commitIndex.leb s.commitIndex = true → (addEntry s req).1.db = s.db) := by
  rcases addEntry_cases s req with ⟨⟨ha, hb⟩, hE⟩ | ⟨_, hlt, hE⟩ | ⟨_, _, hE⟩
  · rcases hs with h | h
    · exact absurd h ha
    · exact absurd h hb
  · omega
  · refine ⟨by simp [hE, addEntryAccepted], by simp [hE, addEntryAccepted], ?_⟩
    intro hle
    simp [hE, addEntryAccepted, walReadRange_eq_nil _ _ _ hle]

/-- Claim C2 witness: the amended statement evaluated on the concrete
regressing request. -/
theorem addEntry_commit_apply_witness :
    (addEntry regressState regressReq).1.commitIndex = regressReq.commitIndex :=
  (addEntry_commit_apply regressState regressReq (Or.inl rfl) (by decide)).1

/-- A follower at epoch 7 with an empty log. -/
def staleState : FollowerState :=
  { epoch := 7, commitIndex := EntryId.zero, headIndex := EntryId.zero,
    status := Status.Follower, wal := [], db := [] }

/-- A request from a stale leader at epoch 6. -/
def staleReq : AddEntryRequest :=
  { epoch := 6, entry := { entryId := ⟨6, 0⟩, value := 0 }, commitIndex := EntryId.zero }

/-- Claim C3: while the status is Follower or Fenced, an
`AddEntryRequest` whose epoch is strictly below the controller's is
answered with `{ epoch: req.epoch, entry_id: none, invalid_epoch: true }`
and the state — epoch, status, head index, commit index, WAL contents
and KV contents — is returned untouched; the response is an `ok`, so the
`AddEntries` loop goes on processing the remaining requests instead of
terminating the stream. -/
theorem addEntry_stale_epoch_rejected (s : FollowerState) (req : AddEntryRequest)
    (rest : List AddEntryRequest)
    (hs : s.status = Status.Follower ∨ s.status = Status.Fenced)
    (he : req.epoch < s.epoch) :
    addEntry s req =
      (s, Except.ok { epoch := req.epoch, entryId := none, invalidEpoch := true }) ∧
    AddEntries s (req :: rest) =
      ((AddEntries s rest).1,
        { epoch := req.epoch, entryId := none, invalidEpoch := true } ::
          (AddEntries s rest).2) := by
  have h1 : addEntry s req =
      (s, Except.ok { epoch := req.epoch, entryId := none, invalidEpoch := true }) := by
    rcases addEntry_cases s req with ⟨⟨ha, hb⟩, hE⟩ | ⟨_, _, hE⟩ | ⟨_, hle, hE⟩
    · rcases hs with h | h
      · exact absurd h ha
      · exact absurd h hb
    · exact hE
    · omega
  refine ⟨h1, ?_⟩
  simp only [AddEntries, h1]

/-- Claim C3 witness: the stale request at epoch 6 against the epoch-7
follower. -/
theorem addEntry_stale_epoch_rejected_witness :
    addEntry staleState staleReq =
      (staleState, Except.ok { epoch := 6, entryId := none, invalidEpoch := true }) :=
  (addEntry_stale_epoch_rejected staleState staleReq [] (Or.inl rfl) (by decide)).1

/-- Claim C4: an `AddEntryRequest` accepted while the status is Follower
or Fenced and `req.epoch ≥` the current epoch makes the status Follower
and the epoch `req.epoch`, appends exactly `req.entry` once to the WAL,
sets the head index to `req.entry.entry_id`, and answers
`{ epoch: current.epoch, entry_id: req.entry.entry_id,
invalid_epoch: false }` (the current epoch at response time equals
`req.epoch`). -/
theorem addEntry_accepted_spec (s : FollowerState) (req : AddEntryRequest)
    (hs : s.status = Status.Follower ∨ s.status = Status.Fenced)
    (he : s.epoch ≤ req.epoch) :
    (addEntry s req).1.status = Status.Follower ∧
    (addEntry s req).1.epoch = req.epoch ∧
    (addEntry s req).1.wal = s.wal ++ [req.entry] ∧
    (addEntry s req).1.headIndex = req.entry.entryId ∧
    (addEntry s req).2 =
      Except.ok { epoch := req.epoch, entryId := some req.entry.entryId,
                  invalidEpoch := false } := by
  rcases addEntry_cases s req with ⟨⟨ha, hb⟩, hE⟩ | ⟨_, hlt, hE⟩ | ⟨_, _, hE⟩
  · rcases hs with h | h
    · exact absurd h ha
    · exact absurd h hb
  · omega
  · simp [hE, addEntryAccepted]

/-- An acceptable request at the follower's own epoch. -/
def acceptReq : AddEntryRequest :=
  { epoch := 7, entry := { entryId := ⟨7, 0⟩, value := 3 }, commitIndex := EntryId.zero }

/-- Claim C4 witness: the accepted request's response on a concrete
state. -/
theorem addEntry_accepted_spec_witness :
    (addEntry staleState acceptReq).2 =
      Except.ok { epoch := 7, entryId := some ⟨7, 0⟩, invalidEpoch := false } :=
  (addEntry_accepted_spec staleState acceptReq (Or.inl rfl) (by decide)).2.2.2.2

/-- Claim C5: `Fence` succeeds exactly when `req.epoch` is strictly
greater than the current epoch, with no status precondition; on success
only the epoch (now `req.epoch`) and the status (now Fenced) change —
head index, commit index, WAL and KV are untouched — and the response
carries the new epoch and the head index; otherwise the state is
returned unchanged with `InvalidEpoch`. -/
theorem fence_spec (s : FollowerState) (req : FenceRequest) :
    (s.epoch < req.epoch →
      Fence s req = ({ s with epoch := req.epoch, status := Status.Fenced },
        Except.ok { epoch := req.epoch, headIndex := s.headIndex })) ∧
    (req.epoch ≤ s.epoch →
      Fence s req = (s, Except.error OxiaError.invalidEpoch)) := by
  rcases Fence_cases s req with ⟨h, hE⟩ | ⟨h, hE⟩
  · exact ⟨fun hlt => absurd hlt (Nat.not_lt.mpr h), fun _ => hE⟩
  · exact ⟨fun _ => hE, fun hle => absurd h (Nat.not_lt.mpr hle)⟩

/-- Claim C5 witness: a fresh controller fenced at epoch 3. -/
theorem fence_spec_witness :
    Fence (initState []) { epoch := 3 } =
      ({ initState [] with epoch := 3, status := Status.Fenced },
       Except.ok { epoch := 3, headIndex := EntryId.zero }) :=
  (fence_spec (initState []) { epoch := 3 }).1 (by decide)

/-- Claim C6: across any admissible call sequence the epoch is
monotonically non-decreasing — between any two observation points of a
run, the epoch at the later point is at least the epoch at the earlier
one. -/
theorem epoch_never_decreases (s : FollowerState) (cs1 cs2 : List Call) :
    (run s cs1).epoch ≤ (run s (cs1 ++ cs2)).epoch := by
  have h : run s (cs1 ++ cs2) = run (run s cs1) cs2 := by
    simp [run, List.foldl_append]
  rw [h]
  exact run_epoch_le (run s cs1) cs2

/-- A fenced follower at epoch 5 whose log ends at `(4,10)`. -/
def fencedState : FollowerState :=
  { epoch := 5, commitIndex := EntryId.zero, headIndex := ⟨4, 10⟩,
    status := Status.Fenced,
    wal := [{ entryId := ⟨4, 7⟩, value := 1 }, { entryId := ⟨4, 10⟩, value := 2 }],
    db := [] }

/-- Claim C7: a `Truncate` accepted under its preconditions (status
Fenced and matching epoch) sets the status to Follower and the head
index to the head reported by the WAL truncation, leaves the commit
index unchanged, and answers with that head; with the wrong status it
fails with `InvalidStatus` and with a differing epoch it fails with
`InvalidEpoch`, the state unchanged in both error cases. -/
theorem truncate_spec (s : FollowerState) (req : TruncateRequest) :
    (s.status ≠ Status.Fenced →
      Truncate s req = (s, Except.error OxiaError.invalidStatus)) ∧
    (s.status = Status.Fenced → req.epoch ≠ s.epoch →
      Truncate s req = (s, Except.error OxiaError.invalidEpoch)) ∧
    (s.status = Status.Fenced → req.epoch = s.epoch →
      ((Truncate s req).1.status = Status.Follower ∧
       (Truncate s req).1.headIndex = (walTruncateLog s.wal req.headIndex).1 ∧
       (Truncate s req).1.commitIndex = s.commitIndex ∧
       (Truncate s req).2 =
         Except.ok { epoch := req.epoch,
                     headIndex := (walTruncateLog s.wal req.headIndex).1 })) := by
  rcases Truncate_cases s req with ⟨h, hE⟩ | ⟨h1, h2, hE⟩ | ⟨h1, h2, hE⟩
  · exact ⟨fun _ => hE, fun hs => absurd hs h, fun hs _ => absurd hs h⟩
  · exact ⟨fun hn => absurd h1 hn, fun _ _ => hE, fun _ he => absurd he h2⟩
  · refine ⟨fun hn => absurd h1 hn, fun _ hne => absurd h2 hne, fun _ _ => ?_⟩
    simp [hE]

/-- Claim C7 witness: truncating the fenced epoch-5 follower to `(4,7)`
makes it a Follower. -/
theorem truncate_spec_witness :
    (Truncate fencedState { epoch := 5, headIndex := ⟨4, 7⟩ }).1.status =
      Status.Follower :=
  ((truncate_spec fencedState { epoch := 5, headIndex := ⟨4, 7⟩ }).2.2 rfl rfl).1

/-- Claim C8: in every `AddEntryResponse` the controller produces,
`invalid_epoch = true` exactly when `entry_id` is absent: the stale
rejection carries `none` with the flag set, and an acceptance carries
the entry id with the flag clear. -/
theorem addEntry_response_invalid_iff_none (s s' : FollowerState)
    (req : AddEntryRequest) (res : AddEntryResponse)
    (h : addEntry s req = (s', Except.ok res)) :
    (res.invalidEpoch = true ↔ res.entryId = none) := by
  rcases addEntry_cases s req with ⟨_, hE⟩ | ⟨_, _, hE⟩ | ⟨_, _, hE⟩ <;> rw [hE] at h
  · simp at h
  · simp only [Prod.mk.injEq, Except.ok.injEq] at h
    obtain ⟨-, h⟩ := h
    subst h
    simp
  · simp only [Prod.mk.injEq, Except.ok.injEq] at h
    obtain ⟨-, h⟩ := h
    subst h
    simp

/-- Claim C8 witness: the property evaluated on the stale rejection
response. -/
theorem addEntry_response_invalid_iff_none_witness :
    (({ epoch := 6, entryId := none, invalidEpoch := true } :
        AddEntryResponse).invalidEpoch = true ↔
      ({ epoch := 6, entryId := none, invalidEpoch := true } :
        AddEntryResponse).entryId = none) :=
  addEntry_response_invalid_iff_none staleState staleState staleReq
    { epoch := 6, entryId := none, invalidEpoch := true } rfl

/-- Claim C9 counterexample: when the WAL close fails, `Close` never
invokes the KV store's close (so the KV error is not collected), and a
subsequent `Fence` at a higher epoch is accepted rather than rejected —
`Close` flips no flag and later handler calls run the normal logic. -/
theorem close_then_fence_ctrex :
    (Close (initState []) (Except.error ()) (Except.error ())).2.2.1 = false ∧
    (Fence (Close (initState []) (Except.error ()) (Except.error ())).1
        { epoch := 1 }).2 =
      Except.ok { epoch := 1, headIndex := EntryId.zero } :=
  ⟨rfl, rfl⟩

/-- Claim C9 (amended): `Close` closes the WAL and, only when that
succeeds, closes the KV store, returning the first error encountered (a
WAL close failure leaves the KV store unclosed and its error
uncollected); it changes none of the controller's fields and sets no
closed flag, so subsequent handler calls are processed by the normal
guards — in particular a Fence with a higher epoch still succeeds. -/
theorem close_spec (s : FollowerState) (w d : Except Unit Unit) :
    (Close s w d).1 = s ∧
    (Close s w d).2.1 = true ∧
    ((Close s w d).2.2.1 = true ↔ w = Except.ok ()) ∧
    ((Close s w d).2.2.2 = Except.ok () ↔ (w = Except.ok () ∧ d = Except.ok ())) := by
  cases w with
  | error u => cases u; simp [Close]
  | ok u =>
    cases u
    cases d with
    | error v => cases v; simp [Close]
    | ok v => cases v; simp [Close]

/-- Claim C9 witness: the amended statement evaluated at a successful
close of both collaborators. -/
theorem close_spec_witness :
    (Close (initState []) (Except.ok ()) (Except.ok ())).1 = initState [] :=
  (close_spec (initState []) (Except.ok ()) (Except.ok ())).1

/-- Claim C10: when the WAL truncation fails inside a `Truncate` whose
preconditions passed, the handler propagates the error after having
already set the status to Follower and the epoch to `req.epoch`, while
the head index and the commit index keep their old values: the error
path is not atomic with respect to status and epoch. -/
theorem truncate_wal_error_spec (s : FollowerState) (req : TruncateRequest)
    (hs : s.status = Status.Fenced) (he : req.epoch = s.epoch) :
    TruncateW s req (Except.error ()) =
      ({ s with status := Status.Follower, epoch := req.epoch },
       Except.error OxiaError.walError) := by
  rw [TruncateW, checkStatus_ok _ _ hs, checkEpochEqualIn_ok _ _ he]

/-- Claim C10 witness: the failing truncation on the fenced epoch-5
follower. -/
theorem truncate_wal_error_spec_witness :
    TruncateW fencedState { epoch := 5, headIndex := ⟨4, 7⟩ } (Except.error ()) =
      ({ fencedState with status := Status.Follower, epoch := 5 },
       Except.error OxiaError.walError) :=
  truncate_wal_error_spec fencedState { epoch := 5, headIndex := ⟨4, 7⟩ } rfl rfl

end Oxia
